import Mathlib

/-!
Verification of the YouSound audio-analysis core.

This file is a shallow embedding of the analysis module (the `analyzeAudio`,
`analyzeTranscript`, `getRepeatedWords` and `generateFeedback` functions of
the transcript-analysis source file) together with theorems settling the
specification claims about it.

Modelling conventions:
* JS numbers are embedded as rationals (ℚ); `Math.round` is `jsRound`
  (floor of x + 1/2, which is the JS rounding rule for the values involved).
* Optional / possibly-absent JSON fields are `Option` values; the JS
  idioms `x || d` and `x ?? d` are embedded explicitly where they occur.
* A JS object used as a string-keyed counter dictionary is embedded as an
  association list in key-insertion order, which is the enumeration order
  of `Object.entries` for the non-numeric keys produced here.
* `Array.prototype.sort` is stable, so the `.sort((a, b) => b.count - a.count)`
  calls are embedded as a stable insertion sort by descending count.
* The effectful pipeline (`analyzeAudio`) is embedded as a function of the
  remote responses it would receive: the upload outcome, the job-submit
  outcome, and the list of successive poll responses.  The outer `Option`
  of its result is termination (the unbounded poll loop diverges when it
  never sees a terminal status); the inner `Option` is the returned value,
  `none` being the `null` produced by the catch-all handler.
-/

namespace YouSound

/-- JS `Math.round` on the rationals: floor of `x + 1/2`. -/
def jsRound (x : ℚ) : ℤ := ⌊x + 1/2⌋

/-- JS `String.prototype.toLowerCase`, character by character. -/
def lowerStr (s : String) : String := String.mk (s.data.map Char.toLower)

/-- JS `String.prototype.trim`: strip whitespace from both ends. -/
def trimStr (s : String) : String :=
  String.mk (((s.data.dropWhile Char.isWhitespace).reverse.dropWhile
    Char.isWhitespace).reverse)

/-- Number of occurrences of `t` in `l` (specification-side counting). -/
def countOcc (t : String) (l : List String) : Nat :=
  (l.filter (fun u => u = t)).length

/-- Word of a transcript (source `interface Word`): `text`, `start`/`end`
 seconds, `confidence`, and the optional `type` tag whose value
 `"disfluency"` marks a filler.  `confidence` is optional because the code
 defends against its absence (`?? 1` and `|| 0`). -/
structure Word where
  text : String
  start : ℚ
  end_ : ℚ
  confidence : Option ℚ
  type : Option String
deriving DecidableEq

/-- Source `interface Highlight`. -/
structure Highlight where
  text : String
  count : Nat
  rank : Option Nat
  timestamps : List (ℚ × ℚ)
deriving DecidableEq

/-- The fields of a completed transcript payload that the analyzer reads:
 `text`, `words`, `audio_duration`, `auto_highlights_result.results` and
 `utterances` (opaque pass-through, embedded as strings). -/
structure TranscriptData where
  text : String
  words : Option (List Word)
  audio_duration : Option ℚ
  auto_highlights_result : Option (List Highlight)
  utterances : Option (List String)
deriving DecidableEq

/-- Source `COMMON_FILLERS` constant. -/
def COMMON_FILLERS : List String := ["like", "because", "so", "um", "uh", "you know"]

/-- The test `word.type === "disfluency"`. -/
def isDisfluency (w : Word) : Bool := w.type = some "disfluency"

/-- Keys of a counter dictionary in insertion order. -/
def keys (acc : List (String × Nat)) : List String := acc.map Prod.fst

/-- Increment the value stored under key `t` (in place, keeping order). -/
def incr (t : String) : List (String × Nat) → List (String × Nat)
  | [] => []
  | (u, c) :: rest => if u = t then (u, c + 1) :: rest else (u, c) :: incr t rest

/-- One step of `counts[text] = (counts[text] || 0) + 1` on a JS object:
 a new key is appended at the end, an existing key is bumped in place. -/
def bump (acc : List (String × Nat)) (t : String) : List (String × Nat) :=
  if t ∈ keys acc then incr t acc else acc ++ [(t, 1)]

/-- The counter dictionary built by a `forEach` of `bump` steps, read off
 by `Object.entries` in insertion order. -/
def buildCounts (l : List String) : List (String × Nat) := l.foldl bump []

/-- Insert an entry into a list sorted by descending count, after all
 entries with a count ≥ its own (the placement a stable sort gives an
 element coming after the others). -/
def insertDesc (x : String × Nat) : List (String × Nat) → List (String × Nat)
  | [] => [x]
  | h :: t => if h.2 ≤ x.2 then x :: h :: t else h :: insertDesc x t

/-- JS `.sort((a, b) => b.count - a.count)` (a stable descending sort). -/
def sortDesc (l : List (String × Nat)) : List (String × Nat) :=
  l.foldr insertDesc []

/-- The filler words: `words.filter((word) => word.type === "disfluency")`. -/
def fillersOf (ws : List Word) : List Word := ws.filter isDisfluency

/-- Lower-cased, trimmed texts of the filler words, in transcript order. -/
def fillerTexts (ws : List Word) : List String :=
  (fillersOf ws).map (fun w => trimStr (lowerStr w.text))

/-- Source `mostUsedFillers`: frequency table over the filler texts,
 sorted by descending count (stably), first 10 entries. -/
def mostUsedFillers (ws : List Word) : List (String × Nat) :=
  (sortDesc (buildCounts (fillerTexts ws))).take 10

/-- Source `commonFillerCounts`: the dictionary is pre-seeded with every
 `COMMON_FILLERS` key at 0, then each word whose lower-cased text is in
 the vocabulary bumps its key; the result is the vocabulary in order with
 the number of matching words. -/
def commonFillerCountsOf (ws : List Word) : List (String × Nat) :=
  COMMON_FILLERS.map (fun f => (f, countOcc f (ws.map (fun w => lowerStr w.text))))

/-- The pronunciation-flag test `(w.confidence ?? 1) < 0.6 && w.type !== "disfluency"`. -/
def flaggedPron (w : Word) : Bool :=
  decide (w.confidence.getD 1 < (0.6 : ℚ)) && !isDisfluency w

/-- Source `pronunciationIssues`: flagged words projected to text and
 (possibly absent) confidence. -/
def pronunciationIssues (ws : List Word) : List (String × Option ℚ) :=
  (ws.filter flaggedPron).map (fun w => (w.text, w.confidence))

/-- A long-pause record `{start, end, duration}`. -/
structure Pause where
  start : ℚ
  end_ : ℚ
  duration : ℚ
deriving DecidableEq

/-- Source long-pause loop: for each adjacent pair, emit a record when
 the gap `current.start - prev.end` exceeds 2.5 seconds. -/
def longPauses : List Word → List Pause
  | [] => []
  | [_] => []
  | p :: c :: rest =>
    (if c.start - p.end_ > (2.5 : ℚ)
      then [⟨p.end_, c.start, c.start - p.end_⟩] else [])
      ++ longPauses (c :: rest)

/-- Source `transcript.audio_duration || 1`: an absent or zero duration is
 replaced by 1 second (any other number, negative included, is kept). -/
def effectiveDurationSeconds (t : TranscriptData) : ℚ :=
  match t.audio_duration with
  | none => 1
  | some d => if d = 0 then 1 else d

/-- The non-filler words: `words.filter((word) => word.type !== "disfluency")`. -/
def spokenWords (ws : List Word) : List Word :=
  ws.filter (fun w => !isDisfluency w)

/-- Source `avgConfidence`: mean of `word.confidence || 0` over the
 non-filler words, 0 when there are none (computed with `reduce`). -/
def avgConfidence (ws : List Word) : ℚ :=
  let nf := spokenWords ws
  if 0 < nf.length then
    (nf.foldl (fun s w => s + w.confidence.getD 0) 0) / nf.length
  else 0

/-- Unrounded filler rate: `fillers.length / totalDurationMinutes`. -/
def fillerRateOf (t : TranscriptData) : ℚ :=
  ((fillersOf (t.words.getD [])).length : ℚ) / (effectiveDurationSeconds t / 60)

/-- Unrounded speaking pace: `totalWords / totalDurationMinutes`. -/
def speakingPaceOf (t : TranscriptData) : ℚ :=
  ((spokenWords (t.words.getD [])).length : ℚ) / (effectiveDurationSeconds t / 60)

/-- Argument record of `generateFeedback` (built with the unrounded
 rate, pace and confidence values). -/
structure FeedbackInput where
  totalFillers : Nat
  fillerRate : ℚ
  longPauses : List Pause
  speakingPace : ℚ
  avgConfidence : ℚ
  totalDurationMinutes : ℚ
  mostUsedFillers : List (String × Nat)
  commonFillerCounts : List (String × Nat)
  pronunciationIssues : List (String × Option ℚ)

/-- Filler-rate rule of `generateFeedback`: the feedback line and the
 recommendations its branch pushes.  Branches: `< 2`, else `< 5`, else. -/
def fillerRateFeedback (r : ℚ) : List String × List String :=
  if r < 2 then
    (["🎯 Excellent! Very few filler words detected."], [])
  else if r < 5 then
    (["👍 Good control of filler words, but there\x27s room for improvement."],
     ["Practice pausing instead of using filler words when you need time to think."])
  else
    (["⚠️ High filler word usage detected (" ++ toString r ++ "/min). This may distract your audience."],
     ["Record yourself regularly and become aware of your filler word patterns.",
      "Practice speaking more slowly and deliberately."])

/-- Top-filler rule: when the table is nonempty, call out its head. -/
def topFillerFeedback : List (String × Nat) → List String × List String
  | [] => ([], [])
  | tf :: _ =>
    (["🔍 Your most used filler word is \"" ++ tf.1 ++ "\" (" ++ toString tf.2 ++ " times)."],
     ["Be especially mindful of saying \"" ++ tf.1 ++ "\" - try replacing it with a brief pause."])

/-- Common-filler-vocabulary rule: list every nonzero count. -/
def commonFillerFeedback (l : List (String × Nat)) : List String × List String :=
  let used := l.filter (fun e => 0 < e.2)
  if 0 < used.length then
    (["🗣️ You used common filler words: "
        ++ String.intercalate ", "
          (used.map (fun e => "\"" ++ e.1 ++ "\" (" ++ toString e.2 ++ " times)"))
        ++ ". Try to reduce them for clearer speech."],
     ["Practice pausing instead of using common filler words."])
  else ([], [])

/-- Speaking-pace rule: `< 120`, `> 200`, otherwise praise. -/
def paceFeedback (p : ℚ) : List String × List String :=
  if p < 120 then
    (["🐌 Your speaking pace is quite slow. Consider speaking a bit faster to maintain engagement."],
     ["Practice speaking at 150-160 words per minute for optimal clarity and engagement."])
  else if p > 200 then
    (["🏃 You\x27re speaking quite fast. Slow down to ensure clarity and comprehension."],
     ["Take deliberate pauses between sentences to give your audience time to process."])
  else
    (["✅ Your speaking pace is in a good range for clear communication."], [])

/-- Pause rule: note any long pauses, and add two preparation
 recommendations when their number exceeds twice the duration in minutes. -/
def pauseFeedback (pauses : List Pause) (mins : ℚ) : List String × List String :=
  if 0 < pauses.length then
    (["⏸️ " ++ toString pauses.length ++ " long pause(s) detected. Some pauses can be effective, but too many may indicate hesitation."],
     if (pauses.length : ℚ) > mins * 2 then
       ["Prepare your content more thoroughly to reduce hesitation pauses.",
        "Practice your presentation multiple times to improve flow."]
     else [])
  else (["⏭️ Good flow with appropriate pausing."], [])

/-- Mean-confidence rule: `> 0.8`, else `> 0.6`, else warning. -/
def confidenceFeedback (c : ℚ) : List String × List String :=
  if c > (0.8 : ℚ) then
    (["🎤 Clear articulation detected - your speech is easy to understand."], [])
  else if c > (0.6 : ℚ) then
    (["👌 Generally clear speech with some areas for improvement."],
     ["Speak more clearly and ensure proper pronunciation of key words."])
  else
    (["🗣️ Consider speaking more clearly - some words may be difficult to understand."],
     ["Practice articulation exercises and speak more slowly."])

/-- First-seen deduplication of a list of strings (the enumeration order
 of a JS `Set` built by insertion). -/
def firstSeen : List String → List String
  | [] => []
  | t :: l => t :: (firstSeen l).filter (fun u => u ≠ t)

/-- Pronunciation-issues rule: list the unique lower-cased flagged words
 in first-appearance order, plus two recommendations. -/
def pronunciationFeedback (issues : List (String × Option ℚ)) : List String × List String :=
  if 0 < issues.length then
    (["❗ Potential pronunciation issues detected on words: "
        ++ String.intercalate ", " (firstSeen (issues.map (fun i => lowerStr i.1))) ++ "."],
     ["Work on clear articulation and pronunciation, especially these words.",
      "Record yourself and compare to native speakers."])
  else ([], [])

/-- The two general-purpose recommendations always appended last. -/
def generalRecs : List String :=
  ["Record yourself regularly to track improvement over time.",
   "Practice in front of a mirror or with friends for feedback."]

/-- Source `generateFeedback`: the rules fire independently in a fixed
 order, each appending to the feedback and recommendation lists. -/
def generateFeedback (m : FeedbackInput) : List String × List String :=
  let p1 := fillerRateFeedback m.fillerRate
  let p2 := topFillerFeedback m.mostUsedFillers
  let p3 := commonFillerFeedback m.commonFillerCounts
  let p4 := paceFeedback m.speakingPace
  let p5 := pauseFeedback m.longPauses m.totalDurationMinutes
  let p6 := confidenceFeedback m.avgConfidence
  let p7 := pronunciationFeedback m.pronunciationIssues
  (p1.1 ++ p2.1 ++ p3.1 ++ p4.1 ++ p5.1 ++ p6.1 ++ p7.1,
   p1.2 ++ p2.2 ++ p3.2 ++ p4.2 ++ p5.2 ++ p6.2 ++ p7.2 ++ generalRecs)

/-- The `analysis` object returned by `analyzeTranscript`. -/
structure Analysis where
  totalFillers : Nat
  fillerRate : ℚ
  mostUsedFillers : List (String × Nat)
  commonFillerCounts : List (String × Nat)
  longPauses : List Pause
  speakingPace : ℤ
  confidenceScore : ℤ
  pronunciationIssues : List (String × Option ℚ)
  feedback : List String
  recommendations : List String
  fillers : List Word

/-- The metrics record handed to `generateFeedback` by `analyzeTranscript`. -/
def mkFeedbackInput (t : TranscriptData) : FeedbackInput :=
  let words := t.words.getD []
  { totalFillers := (fillersOf words).length
    fillerRate := fillerRateOf t
    longPauses := longPauses words
    speakingPace := speakingPaceOf t
    avgConfidence := avgConfidence words
    totalDurationMinutes := effectiveDurationSeconds t / 60
    mostUsedFillers := mostUsedFillers words
    commonFillerCounts := commonFillerCountsOf words
    pronunciationIssues := pronunciationIssues words }

/-- Source `analyzeTranscript`: derives every metric from the transcript,
 rounding the filler rate to one decimal and pace/confidence to integers
 (the feedback generator sees the unrounded values). -/
def analyzeTranscript (t : TranscriptData) : Analysis :=
  let words := t.words.getD []
  let fb := generateFeedback (mkFeedbackInput t)
  { totalFillers := (fillersOf words).length
    fillerRate := (jsRound (fillerRateOf t * 10) : ℚ) / 10
    mostUsedFillers := mostUsedFillers words
    commonFillerCounts := commonFillerCountsOf words
    longPauses := longPauses words
    speakingPace := jsRound (speakingPaceOf t)
    confidenceScore := jsRound (avgConfidence words * 100)
    pronunciationIssues := pronunciationIssues words
    feedback := fb.1
    recommendations := fb.2
    fillers := fillersOf words }

/-- Lower-cased texts of the non-filler words of length > 1 — the tokens
 `getRepeatedWords` counts. -/
def eligibleTexts (ws : List Word) : List String :=
  ((ws.filter (fun w => !isDisfluency w)).map (fun w => lowerStr w.text)).filter
    (fun s => 1 < s.length)

/-- Source `getRepeatedWords`: count the eligible tokens, keep counts > 1,
 sort by descending count. -/
def getRepeatedWords (ws : List Word) : List (String × Nat) :=
  sortDesc ((buildCounts (eligibleTexts ws)).filter (fun e => 1 < e.2))

/-- One poll response of the remote job endpoint: its `status` string,
 its `error` field and the transcript payload used when completed. -/
structure PollData where
  status : String
  error : String
  payload : TranscriptData
deriving DecidableEq

/-- The `while (true)` poll loop over the successive poll responses:
 `completed` returns the payload, `error` throws the error detail, any
 other status re-polls.  The result counts the polls performed; `none`
 means the loop never reaches a terminal status (it would poll forever). -/
def pollLoop : List PollData → Option (Except String TranscriptData × Nat)
  | [] => none
  | d :: rest =>
    if d.status = "completed" then some (Except.ok d.payload, 1)
    else if d.status = "error" then some (Except.error d.error, 1)
    else (pollLoop rest).map (fun p => (p.1, p.2 + 1))

/-- The value `analyzeAudio` returns on success (source steps 4 to 7). -/
structure AnalysisResult where
  text : String
  words : List Word
  fillers : List Word
  utterances : List String
  highlights : List Highlight
  repeatedWords : List (String × Nat)
  analysis : Analysis

/-- Steps 4 to 7 of `analyzeAudio` on a completed transcript: the full
 result object, with `auto_highlights_result?.results || []` and
 `transcript.words || []` defaulting. -/
def buildResult (t : TranscriptData) : AnalysisResult :=
  let analysis := analyzeTranscript t
  { text := t.text
    words := t.words.getD []
    fillers := analysis.fillers
    utterances := t.utterances.getD []
    highlights := t.auto_highlights_result.getD []
    repeatedWords := getRepeatedWords (t.words.getD [])
    analysis := analysis }

/-- The remote interactions one `analyzeAudio` call consumes: the upload
 outcome, the transcript-submission outcome (each either a value or a
 thrown network/parse error) and the successive poll responses. -/
structure RemoteEnv where
  upload : Except String String
  submit : Except String String
  polls : List PollData

/-- Source `analyzeAudio` as a function of the remote responses.  The
 outer `Option` is termination of the unbounded poll loop; the inner
 `Option` is the returned value — the catch-all handler turns every
 thrown failure (upload, submit, or job error status) into `null`. -/
def analyzeAudio (env : RemoteEnv) : Option (Option AnalysisResult) :=
  match env.upload with
  | Except.error _ => some none
  | Except.ok _ =>
    match env.submit with
    | Except.error _ => some none
    | Except.ok _ =>
      match pollLoop env.polls with
      | none => none
      | some (Except.ok t, _) => some (some (buildResult t))
      | some (Except.error _, _) => some none

/-- Specification-side frequency table: the distinct strings of `l` in
 first-seen order, each with its number of occurrences. -/
def specFreqTable (l : List String) : List (String × Nat) :=
  (firstSeen l).map (fun t => (t, countOcc t l))

/-- Specification-side mean confidence: arithmetic mean of the (defaulted)
 confidences of the spoken words, 0 when there are none. -/
def meanConfidence (ws : List Word) : ℚ :=
  if spokenWords ws = [] then 0
  else ((spokenWords ws).map (fun w => w.confidence.getD 0)).sum / (spokenWords ws).length

/-! ## Concrete inputs used by witnesses and counterexamples -/

/-- Word ending at second 1. -/
def wGapA : Word := ⟨"a", 0, 1, some 1, none⟩

/-- Word starting at second 4 (gap 3.0 after `wGapA`). -/
def wGapB : Word := ⟨"b", 4, 5, some 1, none⟩

/-- Word starting at second 3.4 (gap 2.4 after `wGapA`). -/
def wGapC : Word := ⟨"c", 3.4, 4, some 1, none⟩

/-- Transcript payload with every optional field absent. -/
def emptyTranscript : TranscriptData := ⟨"", none, none, none, none⟩

/-- Poll response with status `processing`. -/
def pollProcessing : PollData := ⟨"processing", "", emptyTranscript⟩

/-- Poll response with status `completed`. -/
def pollCompleted : PollData := ⟨"completed", "", emptyTranscript⟩

/-- Poll response with status `error` and error detail `oops`. -/
def pollError : PollData := ⟨"error", "oops", emptyTranscript⟩

/-- First occurrence of the spoken word `I`. -/
def wI1 : Word := ⟨"I", 0, 1, some 1, none⟩

/-- Second occurrence of the spoken word `I`. -/
def wI2 : Word := ⟨"I", 1, 2, some 1, none⟩

/-- First occurrence of the spoken word `the`. -/
def wThe1 : Word := ⟨"the", 2, 3, some 1, none⟩

/-- Second occurrence of the spoken word `the`. -/
def wThe2 : Word := ⟨"the", 3, 4, some 1, none⟩

/-- Single occurrence of the spoken word `cat`. -/
def wCat : Word := ⟨"cat", 4, 5, some 1, none⟩

/-- Spoken word with confidence 0.9. -/
def wConf09 : Word := ⟨"hello", 0, 1, some 0.9, none⟩

/-- Filler word with confidence 0.1. -/
def wFiller01 : Word := ⟨"um", 1, 2, some 0.1, some "disfluency"⟩

/-- Spoken word whose confidence field is absent. -/
def wNoConf : Word := ⟨"blur", 2, 3, none, none⟩

/-- Filler word with confidence present. -/
def wFillerPlain : Word := ⟨"um", 0, 1, some 1, some "disfluency"⟩

/-- Transcript with one spoken word (confidence 0.9) and one filler word
 (confidence 0.1), duration 60 seconds. -/
def tConf90 : TranscriptData := ⟨"hello um", some [wConf09, wFiller01], some 60, none, none⟩

/-- Transcript with the single spoken word `wConf09`. -/
def tConfA : TranscriptData := ⟨"hello", some [wConf09], some 60, none, none⟩

/-- Transcript `tConfA` with the confidence-less word `wNoConf` added. -/
def tConfB : TranscriptData := ⟨"hello blur", some [wConf09, wNoConf], some 60, none, none⟩

/-- Transcript with an empty word list. -/
def tEmptyWords : TranscriptData := ⟨"", some [], some 60, none, none⟩

/-- Transcript with one filler word and a negative `audio_duration`. -/
def tNegDur : TranscriptData := ⟨"um", some [wFillerPlain], some (-60), none, none⟩

/-- Remote run whose job reaches `error` status at the first poll. -/
def envJobError : RemoteEnv := ⟨Except.ok "url", Except.ok "id", [pollError]⟩

/-- Remote run whose job completes at the first poll. -/
def envCompleted : RemoteEnv := ⟨Except.ok "url", Except.ok "id", [pollCompleted]⟩

/-- Remote run whose upload step throws. -/
def envUploadFail : RemoteEnv := ⟨Except.error "netdown", Except.ok "id", []⟩

/-! ## Helper lemmas -/

theorem jsRound_nonneg {x : ℚ} (h : 0 ≤ x) : 0 ≤ jsRound x := by
  unfold jsRound
  positivity

theorem longPauses_eq_zip (ws : List Word) :
    longPauses ws = (ws.zip ws.tail).filterMap (fun pc =>
      if pc.2.start - pc.1.end_ > (2.5 : ℚ) then
        some ⟨pc.1.end_, pc.2.start, pc.2.start - pc.1.end_⟩ else none) := by
  induction ws with
  | nil => rfl
  | cons p rest ih =>
    cases rest with
    | nil => rfl
    | cons c rest2 =>
      rw [longPauses, ih]
      by_cases h : c.start - p.end_ > (2.5 : ℚ) <;>
        simp [h, List.filterMap_cons]

/-! ## Claim C4 — long-pause detection -/

/-- C4: a long-pause record is emitted exactly for the adjacent pairs whose
 gap `words[i].start - words[i-1].end` strictly exceeds 2.5 seconds, with
 fields `{start = prev.end, end = cur.start, duration = gap}`; a prior word
 ending at 1.0 followed by one starting at 4.0 gives exactly one pause of
 duration 3.0, and a gap of 2.4 gives no pause. -/
theorem C4_long_pauses :
    (∀ ws : List Word,
      longPauses ws = (ws.zip ws.tail).filterMap (fun pc =>
        if pc.2.start - pc.1.end_ > (2.5 : ℚ) then
          some ⟨pc.1.end_, pc.2.start, pc.2.start - pc.1.end_⟩ else none)) ∧
    longPauses [wGapA, wGapB] = [⟨1, 4, 3⟩] ∧
    longPauses [wGapA, wGapC] = [] := by
  refine ⟨longPauses_eq_zip, ?_, ?_⟩ <;>
    norm_num [longPauses, wGapA, wGapB, wGapC]

/-! ## Claim C8 — poll-loop protocol -/

/-- C8: the poll loop re-polls exactly while the status is non-terminal and
 stops at the first terminal status: `processing, processing, completed`
 performs exactly three polls and returns the completed payload; an `error`
 status terminates after that single poll with the thrown error detail,
 whatever responses would have followed; any non-terminal status adds one
 poll and continues with the remaining responses. -/
theorem C8_poll_protocol :
    (∀ d1 d2 d3 : PollData, ∀ rest : List PollData,
      d1.status = "processing" → d2.status = "processing" →
      d3.status = "completed" →
      pollLoop (d1 :: d2 :: d3 :: rest) = some (Except.ok d3.payload, 3)) ∧
    (∀ d : PollData, ∀ rest : List PollData, d.status = "error" →
      pollLoop (d :: rest) = some (Except.error d.error, 1)) ∧
    (∀ d : PollData, ∀ rest : List PollData,
      d.status ≠ "completed" → d.status ≠ "error" →
      pollLoop (d :: rest) = (pollLoop rest).map (fun p => (p.1, p.2 + 1))) := by
  refine ⟨?_, ?_, ?_⟩
  · intro d1 d2 d3 rest h1 h2 h3
    simp [pollLoop, h1, h2, h3]
  · intro d rest h
    simp [pollLoop, h]
  · intro d rest h1 h2
    simp [pollLoop, h1, h2]

/-- C8 witness: concrete three-poll run and concrete immediate error stop. -/
theorem C8_poll_protocol_witness :
    pollLoop [pollProcessing, pollProcessing, pollCompleted]
      = some (Except.ok emptyTranscript, 3) ∧
    pollLoop [pollError, pollProcessing] = some (Except.error "oops", 1) :=
  ⟨C8_poll_protocol.1 pollProcessing pollProcessing pollCompleted [] rfl rfl rfl,
   C8_poll_protocol.2.1 pollError [pollProcessing] rfl⟩

/-! ## Claim C2 — filler-rate feedback bands -/

/-- C2 counterexample: at a filler rate of exactly 5 per minute the rule
 takes the warning branch and pushes its two recommendations — not the mild
 caution with its single recommendation that the claim assigns to the
 range 2 to 5. -/
theorem C2_counterexample :
    (fillerRateFeedback 5).2 =
      ["Record yourself regularly and become aware of your filler word patterns.",
       "Practice speaking more slowly and deliberately."] ∧
    (fillerRateFeedback 5).2 ≠
      ["Practice pausing instead of using filler words when you need time to think."] := by
  constructor <;> norm_num [fillerRateFeedback]

/-- C2 (amended): rate strictly below 2 gives the praise line and no
 recommendation; rate at least 2 and strictly below 5 gives the mild
 caution plus exactly one recommendation; rate 5 or above gives the warning
 plus exactly two recommendations.  The filler-rate rule output heads both
 lists produced by `generateFeedback`. -/
theorem C2_filler_rate_bands :
    (∀ r : ℚ,
      (r < 2 → fillerRateFeedback r =
        (["🎯 Excellent! Very few filler words detected."], [])) ∧
      (2 ≤ r → r < 5 → fillerRateFeedback r =
        (["👍 Good control of filler words, but there\x27s room for improvement."],
         ["Practice pausing instead of using filler words when you need time to think."])) ∧
      (5 ≤ r →
        fillerRateFeedback r =
          (["⚠️ High filler word usage detected (" ++ toString r ++ "/min). This may distract your audience."],
           ["Record yourself regularly and become aware of your filler word patterns.",
            "Practice speaking more slowly and deliberately."]))) ∧
    (∀ m : FeedbackInput, ∃ restF restR,
      generateFeedback m =
        ((fillerRateFeedback m.fillerRate).1 ++ restF,
         (fillerRateFeedback m.fillerRate).2 ++ restR)) := by
  constructor
  · intro r
    refine ⟨?_, ?_, ?_⟩
    · intro h
      simp [fillerRateFeedback, h]
    · intro h1 h2
      rw [fillerRateFeedback, if_neg (by linarith), if_pos h2]
    · intro h
      rw [fillerRateFeedback, if_neg (by linarith), if_neg (by linarith)]
  · intro m
    refine ⟨(topFillerFeedback m.mostUsedFillers).1
        ++ (commonFillerFeedback m.commonFillerCounts).1
        ++ (paceFeedback m.speakingPace).1
        ++ (pauseFeedback m.longPauses m.totalDurationMinutes).1
        ++ (confidenceFeedback m.avgConfidence).1
        ++ (pronunciationFeedback m.pronunciationIssues).1,
      (topFillerFeedback m.mostUsedFillers).2
        ++ (commonFillerFeedback m.commonFillerCounts).2
        ++ (paceFeedback m.speakingPace).2
        ++ (pauseFeedback m.longPauses m.totalDurationMinutes).2
        ++ (confidenceFeedback m.avgConfidence).2
        ++ (pronunciationFeedback m.pronunciationIssues).2
        ++ generalRecs, ?_⟩
    simp [generateFeedback, List.append_assoc]

/-- C2 witness: the caution band applied at the concrete rate 3. -/
theorem C2_filler_rate_bands_witness :
    (2 : ℚ) ≤ 3 ∧ (3 : ℚ) < 5 ∧ fillerRateFeedback 3 =
      (["👍 Good control of filler words, but there\x27s room for improvement."],
       ["Practice pausing instead of using filler words when you need time to think."]) :=
  ⟨by norm_num, by norm_num,
   (C2_filler_rate_bands.1 3).2.1 (by norm_num) (by norm_num)⟩

/-! ## Counting-dictionary lemmas -/

theorem mem_firstSeen {a : String} : ∀ {l : List String}, a ∈ firstSeen l ↔ a ∈ l := by
  intro l
  induction l with
  | nil => simp [firstSeen]
  | cons t l ih =>
    by_cases hat : a = t
    · simp [firstSeen, hat]
    · simp [firstSeen, hat, List.mem_filter, ih]

theorem nodup_firstSeen : ∀ l : List String, (firstSeen l).Nodup := by
  intro l
  induction l with
  | nil => simp [firstSeen]
  | cons t l ih =>
    rw [firstSeen, List.nodup_cons]
    refine ⟨?_, ih.filter _⟩
    intro h
    simp [List.mem_filter] at h

theorem countOcc_append (t : String) (l1 l2 : List String) :
    countOcc t (l1 ++ l2) = countOcc t l1 + countOcc t l2 := by
  simp [countOcc, List.filter_append]

theorem countOcc_singleton (t u : String) :
    countOcc t [u] = if u = t then 1 else 0 := by
  by_cases h : u = t <;> simp [countOcc, h]

theorem countOcc_eq_zero_of_not_mem {t : String} {l : List String} (h : t ∉ l) :
    countOcc t l = 0 := by
  simp only [countOcc, List.length_eq_zero, List.filter_eq_nil_iff]
  intro a ha
  simp only [decide_eq_true_eq]
  rintro rfl
  exact h ha

theorem incr_map {t : String} (g : String → Nat) :
    ∀ ks : List String, ks.Nodup → t ∈ ks →
      incr t (ks.map (fun u => (u, g u))) =
        ks.map (fun u => (u, if u = t then g u + 1 else g u)) := by
  intro ks
  induction ks with
  | nil => simp
  | cons k ks ih =>
    intro hnd hmem
    rw [List.map_cons, List.map_cons, incr]
    by_cases hkt : k = t
    · subst hkt
      rw [if_pos rfl, if_pos rfl]
      congr 1
      refine (List.map_congr_left ?_).symm
      intro u hu
      have huk : ¬u = k := fun he => (List.nodup_cons.mp hnd).1 (he ▸ hu)
      rw [if_neg huk]
    · rw [if_neg hkt, if_neg hkt]
      have hmem2 : t ∈ ks := by
        rcases List.mem_cons.mp hmem with he | h2
        · exact absurd he.symm hkt
        · exact h2
      rw [ih (List.nodup_cons.mp hnd).2 hmem2]

theorem keys_specFreqTable (l : List String) :
    keys (specFreqTable l) = firstSeen l := by
  rw [keys, specFreqTable, List.map_map]
  exact List.map_id'' (fun _ => rfl) _

theorem firstSeen_append_singleton (p : List String) (t : String) :
    firstSeen (p ++ [t]) =
      if t ∈ p then firstSeen p else firstSeen p ++ [t] := by
  induction p with
  | nil => simp [firstSeen]
  | cons h p ih =>
    rw [List.cons_append, firstSeen, ih, firstSeen]
    by_cases htp : t ∈ p
    · simp [htp, List.mem_cons]
    · by_cases hth : t = h
      · subst hth
        simp [htp, List.filter_append]
      · have : t ∉ h :: p := by
          simp [List.mem_cons, hth, htp]
        simp [htp, this, List.filter_append, Ne.symm hth, hth]

theorem bump_specFreqTable (p : List String) (t : String) :
    bump (specFreqTable p) t = specFreqTable (p ++ [t]) := by
  by_cases ht : t ∈ p
  · have htk : t ∈ keys (specFreqTable p) := by
      rw [keys_specFreqTable]
      exact mem_firstSeen.mpr ht
    rw [bump, if_pos htk, specFreqTable,
      incr_map (fun u => countOcc u p) (firstSeen p) (nodup_firstSeen p)
        (mem_firstSeen.mpr ht),
      specFreqTable, firstSeen_append_singleton, if_pos ht]
    apply List.map_congr_left
    intro u _
    rw [countOcc_append, countOcc_singleton]
    by_cases hut : u = t
    · simp [hut]
    · have htu : ¬t = u := fun he => hut he.symm
      simp [hut, htu]
  · have htk : t ∉ keys (specFreqTable p) := by
      rw [keys_specFreqTable]
      exact fun h => ht (mem_firstSeen.mp h)
    rw [bump, if_neg htk, specFreqTable, specFreqTable,
      firstSeen_append_singleton, if_neg ht, List.map_append]
    congr 1
    · apply List.map_congr_left
      intro u hu
      have hut : ¬t = u := fun he => ht (he ▸ mem_firstSeen.mp hu)
      rw [countOcc_append, countOcc_singleton, if_neg hut, Nat.add_zero]
    · simp [countOcc_append, countOcc_singleton,
        countOcc_eq_zero_of_not_mem ht]

theorem foldl_bump_spec : ∀ l p : List String,
    List.foldl bump (specFreqTable p) l = specFreqTable (p ++ l) := by
  intro l
  induction l with
  | nil => intro p; simp
  | cons t l ih =>
    intro p
    rw [List.foldl_cons, bump_specFreqTable, ih]
    simp

theorem buildCounts_eq_specFreqTable (l : List String) :
    buildCounts l = specFreqTable l := by
  have h := foldl_bump_spec l []
  simpa [buildCounts, specFreqTable, firstSeen] using h

theorem mem_specFreqTable {w : String} {c : Nat} {l : List String} :
    (w, c) ∈ specFreqTable l ↔ w ∈ l ∧ c = countOcc w l := by
  constructor
  · intro h
    rcases List.mem_map.mp h with ⟨u, hu, he⟩
    have h1 : u = w := congrArg Prod.fst he
    have h2 : countOcc u l = c := congrArg Prod.snd he
    subst h1
    exact ⟨mem_firstSeen.mp hu, h2.symm⟩
  · rintro ⟨hw, rfl⟩
    exact List.mem_map.mpr ⟨w, mem_firstSeen.mpr hw, rfl⟩

/-! ## Stable descending-sort lemmas -/

theorem mem_insertDesc {a x : String × Nat} :
    ∀ {l : List (String × Nat)}, a ∈ insertDesc x l ↔ a = x ∨ a ∈ l := by
  intro l
  induction l with
  | nil => simp [insertDesc]
  | cons h t ih =>
    rw [insertDesc]
    by_cases hc : h.2 ≤ x.2
    · simp [hc]
    · simp only [if_neg hc, List.mem_cons, ih]
      tauto

theorem mem_sortDesc {a : String × Nat} :
    ∀ {l : List (String × Nat)}, a ∈ sortDesc l ↔ a ∈ l := by
  intro l
  induction l with
  | nil => simp [sortDesc]
  | cons x l ih =>
    show a ∈ insertDesc x (sortDesc l) ↔ _
    rw [mem_insertDesc, ih, List.mem_cons]

theorem sorted_insertDesc {x : String × Nat} :
    ∀ {l : List (String × Nat)},
      List.Sorted (fun a b => b.2 ≤ a.2) l →
      List.Sorted (fun a b => b.2 ≤ a.2) (insertDesc x l) := by
  intro l
  induction l with
  | nil => intro _; simp [insertDesc]
  | cons h t ih =>
    intro hs
    rw [insertDesc]
    by_cases hc : h.2 ≤ x.2
    · rw [if_pos hc]
      apply List.sorted_cons.mpr
      refine ⟨?_, hs⟩
      intro b hb
      rcases List.mem_cons.mp hb with rfl | hbt
      · exact hc
      · exact le_trans ((List.sorted_cons.mp hs).1 b hbt) hc
    · rw [if_neg hc]
      apply List.sorted_cons.mpr
      refine ⟨?_, ih (List.sorted_cons.mp hs).2⟩
      intro b hb
      rcases mem_insertDesc.mp hb with rfl | hbt
      · exact le_of_lt (lt_of_not_le hc)
      · exact (List.sorted_cons.mp hs).1 b hbt

theorem sorted_sortDesc :
    ∀ l : List (String × Nat), List.Sorted (fun a b => b.2 ≤ a.2) (sortDesc l) := by
  intro l
  induction l with
  | nil => simp [sortDesc]
  | cons x l ih => exact sorted_insertDesc ih

theorem filter_insertDesc (x : String × Nat) (c : Nat) :
    ∀ l : List (String × Nat),
      (insertDesc x l).filter (fun e => e.2 = c) =
        if x.2 = c then x :: l.filter (fun e => e.2 = c)
        else l.filter (fun e => e.2 = c) := by
  intro l
  induction l with
  | nil =>
    rw [insertDesc]
    by_cases hx : x.2 = c <;> simp [hx]
  | cons h t ih =>
    rw [insertDesc]
    by_cases hc : h.2 ≤ x.2
    · rw [if_pos hc]
      by_cases hx : x.2 = c <;> simp [hx, List.filter_cons]
    · rw [if_neg hc, List.filter_cons, ih]
      by_cases hx : x.2 = c
      · have hh : ¬h.2 = c := fun he => hc (le_of_eq (he.trans hx.symm))
        simp [hx, hh, List.filter_cons]
      · by_cases hh : h.2 = c <;> simp [hx, hh, List.filter_cons]

theorem filter_sortDesc (c : Nat) :
    ∀ l : List (String × Nat),
      (sortDesc l).filter (fun e => e.2 = c) = l.filter (fun e => e.2 = c) := by
  intro l
  induction l with
  | nil => simp [sortDesc]
  | cons x l ih =>
    show (insertDesc x (sortDesc l)).filter _ = _
    rw [filter_insertDesc, List.filter_cons]
    by_cases hx : x.2 = c <;> simp [hx, ih]

/-! ## Claim C6 — top-filler table -/

/-- C6: `mostUsedFillers` is the first 10 entries of the stable descending
 sort of the frequency table over the lower-cased, trimmed filler texts;
 the table (`specFreqTable`) lists the distinct texts in first-seen order
 with their occurrence counts, the sorted list is descending by count, and
 entries of any fixed count keep the order of the table — ties are broken
 by first-seen order. -/
theorem C6_top_fillers :
    ∀ ws : List Word,
      mostUsedFillers ws = (sortDesc (specFreqTable (fillerTexts ws))).take 10 ∧
      List.Sorted (fun a b => b.2 ≤ a.2) (sortDesc (specFreqTable (fillerTexts ws))) ∧
      (∀ c : Nat,
        (sortDesc (specFreqTable (fillerTexts ws))).filter (fun e => e.2 = c) =
          (specFreqTable (fillerTexts ws)).filter (fun e => e.2 = c)) := by
  intro ws
  refine ⟨?_, sorted_sortDesc _, fun c => filter_sortDesc c _⟩
  rw [mostUsedFillers, buildCounts_eq_specFreqTable]

/-! ## Claim C7 — repeated-word table -/

/-- C7: the repeated-word table contains an entry `(w, c)` exactly when `w`
 is the lower-cased text of a non-disfluency word of length > 1 and `c`,
 its occurrence count among such texts, exceeds 1; the table is sorted
 descending by count; and on the words `I, I, the, the, cat` (none tagged
 as filler) the table is exactly `[(the, 2)]`. -/
theorem C7_repeated_words :
    (∀ ws : List Word, ∀ w : String, ∀ c : Nat,
      ((w, c) ∈ getRepeatedWords ws ↔
        1 < c ∧ w ∈ eligibleTexts ws ∧ c = countOcc w (eligibleTexts ws))) ∧
    (∀ ws : List Word,
      List.Sorted (fun a b => b.2 ≤ a.2) (getRepeatedWords ws)) ∧
    getRepeatedWords [wI1, wI2, wThe1, wThe2, wCat] = [("the", 2)] := by
  refine ⟨?_, fun ws => sorted_sortDesc _, ?_⟩
  · intro ws w c
    rw [getRepeatedWords, mem_sortDesc, List.mem_filter,
      buildCounts_eq_specFreqTable, mem_specFreqTable]
    simp only [decide_eq_true_eq]
    tauto
  · rfl

/-! ## Projection lemmas for `analyzeTranscript` -/

theorem confidenceScore_eq (t : TranscriptData) :
    (analyzeTranscript t).confidenceScore =
      jsRound (avgConfidence (t.words.getD []) * 100) := rfl

theorem fillerRate_eq (t : TranscriptData) :
    (analyzeTranscript t).fillerRate =
      (jsRound (fillerRateOf t * 10) : ℚ) / 10 := rfl

theorem speakingPace_eq (t : TranscriptData) :
    (analyzeTranscript t).speakingPace = jsRound (speakingPaceOf t) := rfl

theorem analysis_fillers_eq (t : TranscriptData) :
    (analyzeTranscript t).fillers = fillersOf (t.words.getD []) := rfl

theorem analysis_mostUsed_eq (t : TranscriptData) :
    (analyzeTranscript t).mostUsedFillers = mostUsedFillers (t.words.getD []) := rfl

theorem analysis_longPauses_eq (t : TranscriptData) :
    (analyzeTranscript t).longPauses = longPauses (t.words.getD []) := rfl

theorem analysis_pron_eq (t : TranscriptData) :
    (analyzeTranscript t).pronunciationIssues =
      pronunciationIssues (t.words.getD []) := rfl

/-! ## Rounding and duration lemmas -/

theorem jsRound_zero : jsRound 0 = 0 := by norm_num [jsRound]

theorem jsRound_le_hundred {x : ℚ} (h : x ≤ 100) : jsRound x ≤ 100 := by
  have h2 : ⌊x + 1/2⌋ < (101 : ℤ) := Int.floor_lt.mpr (by push_cast; linarith)
  unfold jsRound
  omega

theorem effectiveDurationSeconds_pos {t : TranscriptData}
    (h : ∀ d ∈ t.audio_duration, 0 ≤ d) : 0 < effectiveDurationSeconds t := by
  unfold effectiveDurationSeconds
  cases hd : t.audio_duration with
  | none => norm_num
  | some d =>
    have h0 : 0 ≤ d := h d (by simp [hd])
    show 0 < if d = 0 then 1 else d
    by_cases hz : d = 0
    · simp [hz]
    · rw [if_neg hz]
      exact lt_of_le_of_ne h0 (Ne.symm hz)

/-! ## Mean-confidence lemmas -/

theorem foldl_add_getD (l : List Word) :
    ∀ a : ℚ, l.foldl (fun s w => s + w.confidence.getD 0) a =
      a + (l.map (fun w => w.confidence.getD 0)).sum := by
  induction l with
  | nil => intro a; simp
  | cons w l ih => intro a; simp [List.foldl_cons, ih, add_assoc]

theorem avgConfidence_eq_meanConfidence (ws : List Word) :
    avgConfidence ws = meanConfidence ws := by
  by_cases h : spokenWords ws = []
  · simp [avgConfidence, meanConfidence, h]
  · have hlen : 0 < (spokenWords ws).length := List.length_pos.mpr h
    simp [avgConfidence, meanConfidence, h, hlen, foldl_add_getD]

theorem meanConfidence_nonneg {ws : List Word}
    (h : ∀ w ∈ ws, ∀ cf ∈ w.confidence, 0 ≤ cf) :
    0 ≤ meanConfidence ws := by
  unfold meanConfidence
  by_cases he : spokenWords ws = []
  · simp [he]
  · rw [if_neg he]
    apply div_nonneg
    · apply List.sum_nonneg
      intro x hx
      rcases List.mem_map.mp hx with ⟨w, hw, rfl⟩
      have hws : w ∈ ws := List.mem_of_mem_filter hw
      cases hc : w.confidence with
      | none => simp
      | some cf => simpa [hc] using h w hws cf (by simp [hc])
    · exact Nat.cast_nonneg _

theorem meanConfidence_le_one {ws : List Word}
    (h : ∀ w ∈ ws, ∀ cf ∈ w.confidence, cf ≤ 1) :
    meanConfidence ws ≤ 1 := by
  unfold meanConfidence
  by_cases he : spokenWords ws = []
  · simp [he]
  · rw [if_neg he]
    have hlen : 0 < ((spokenWords ws).length : ℚ) := by
      exact_mod_cast List.length_pos.mpr he
    rw [div_le_one hlen]
    have hb : ∀ x ∈ (spokenWords ws).map (fun w => w.confidence.getD 0), x ≤ (1 : ℚ) := by
      intro x hx
      rcases List.mem_map.mp hx with ⟨w, hw, rfl⟩
      have hws : w ∈ ws := List.mem_of_mem_filter hw
      cases hc : w.confidence with
      | none => simp
      | some cf => simpa [hc] using h w hws cf (by simp [hc])
    have hs := List.sum_le_card_nsmul
      ((spokenWords ws).map (fun w => w.confidence.getD 0)) 1 hb
    simpa [nsmul_eq_mul] using hs

/-! ## Claim C3 — nonnegative rates and degenerate transcript -/

/-- C3: with a nonnegative (or absent) duration field, the reported filler
 rate and speaking pace are nonnegative; and a transcript with zero words
 yields the valid degenerate metrics — filler rate 0, speaking pace 0,
 confidence score 0, empty filler, top-filler, pause, pronunciation and
 repeated-word lists — rather than any failure. -/
theorem C3_degenerate_metrics :
    ∀ t : TranscriptData,
      ((∀ d ∈ t.audio_duration, 0 ≤ d) →
        0 ≤ (analyzeTranscript t).fillerRate ∧
        0 ≤ (analyzeTranscript t).speakingPace) ∧
      (t.words.getD [] = [] →
        (analyzeTranscript t).fillerRate = 0 ∧
        (analyzeTranscript t).speakingPace = 0 ∧
        (analyzeTranscript t).confidenceScore = 0 ∧
        (analyzeTranscript t).fillers = [] ∧
        (analyzeTranscript t).mostUsedFillers = [] ∧
        (analyzeTranscript t).longPauses = [] ∧
        (analyzeTranscript t).pronunciationIssues = [] ∧
        getRepeatedWords (t.words.getD []) = []) := by
  intro t
  constructor
  · intro h
    have hd := effectiveDurationSeconds_pos h
    have h60 : (0 : ℚ) ≤ effectiveDurationSeconds t / 60 :=
      div_nonneg hd.le (by norm_num)
    constructor
    · rw [fillerRate_eq]
      have h1 : 0 ≤ fillerRateOf t := div_nonneg (Nat.cast_nonneg _) h60
      have h2 : (0 : ℤ) ≤ jsRound (fillerRateOf t * 10) :=
        jsRound_nonneg (mul_nonneg h1 (by norm_num))
      have h3 : (0 : ℚ) ≤ (jsRound (fillerRateOf t * 10) : ℚ) := by
        exact_mod_cast h2
      exact div_nonneg h3 (by norm_num)
    · rw [speakingPace_eq]
      exact jsRound_nonneg (div_nonneg (Nat.cast_nonneg _) h60)
  · intro h
    refine ⟨?_, ?_, ?_, ?_, ?_, ?_, ?_, ?_⟩
    · rw [fillerRate_eq]
      simp [fillerRateOf, h, fillersOf, jsRound_zero]
    · rw [speakingPace_eq]
      simp [speakingPaceOf, h, spokenWords, jsRound_zero]
    · rw [confidenceScore_eq, h]
      norm_num [avgConfidence, spokenWords, jsRound]
    · rw [analysis_fillers_eq, h]
      rfl
    · rw [analysis_mostUsed_eq, h]
      rfl
    · rw [analysis_longPauses_eq, h]
      rfl
    · rw [analysis_pron_eq, h]
      rfl
    · rw [h]
      rfl

/-- C3 witness: the empty-words transcript with duration 60. -/
theorem C3_degenerate_metrics_witness :
    (0 ≤ (analyzeTranscript tEmptyWords).fillerRate ∧
      0 ≤ (analyzeTranscript tEmptyWords).speakingPace) ∧
    ((analyzeTranscript tEmptyWords).fillerRate = 0 ∧
      (analyzeTranscript tEmptyWords).speakingPace = 0 ∧
      (analyzeTranscript tEmptyWords).confidenceScore = 0 ∧
      (analyzeTranscript tEmptyWords).fillers = [] ∧
      (analyzeTranscript tEmptyWords).mostUsedFillers = [] ∧
      (analyzeTranscript tEmptyWords).longPauses = [] ∧
      (analyzeTranscript tEmptyWords).pronunciationIssues = [] ∧
      getRepeatedWords (tEmptyWords.words.getD []) = []) :=
  ⟨(C3_degenerate_metrics tEmptyWords).1
      (by intro d hd; simp [tEmptyWords] at hd; subst hd; norm_num),
   (C3_degenerate_metrics tEmptyWords).2 (by rfl)⟩

/-! ## Claim C5 — mean-confidence score -/

/-- C5: the confidence score is the rounded 0 to 100 scaling of the
 arithmetic mean of confidence over the spoken (non-disfluency) words
 only, 0 when there are none, an integer between 0 and 100 when the word
 confidences are in [0, 1]; one spoken word at 0.9 plus one filler at 0.1
 scores 90. -/
theorem C5_confidence_score :
    (∀ t : TranscriptData,
      (analyzeTranscript t).confidenceScore =
        jsRound (meanConfidence (t.words.getD []) * 100) ∧
      (spokenWords (t.words.getD []) = [] →
        (analyzeTranscript t).confidenceScore = 0) ∧
      ((∀ w ∈ t.words.getD [], ∀ cf ∈ w.confidence, 0 ≤ cf ∧ cf ≤ 1) →
        0 ≤ (analyzeTranscript t).confidenceScore ∧
        (analyzeTranscript t).confidenceScore ≤ 100)) ∧
    (analyzeTranscript tConf90).confidenceScore = 90 := by
  constructor
  · intro t
    refine ⟨?_, ?_, ?_⟩
    · rw [confidenceScore_eq, avgConfidence_eq_meanConfidence]
    · intro h
      rw [confidenceScore_eq, avgConfidence_eq_meanConfidence, meanConfidence,
        if_pos h]
      norm_num [jsRound]
    · intro h
      rw [confidenceScore_eq, avgConfidence_eq_meanConfidence]
      have h0 : 0 ≤ meanConfidence (t.words.getD []) :=
        meanConfidence_nonneg (fun w hw cf hcf => (h w hw cf hcf).1)
      have h1 : meanConfidence (t.words.getD []) ≤ 1 :=
        meanConfidence_le_one (fun w hw cf hcf => (h w hw cf hcf).2)
      exact ⟨jsRound_nonneg (by nlinarith), jsRound_le_hundred (by nlinarith)⟩
  · have hsw : spokenWords (tConf90.words.getD []) = [wConf09] := rfl
    rw [confidenceScore_eq]
    simp only [avgConfidence, hsw]
    norm_num [wConf09, jsRound]

/-- C5 witness: the score bounds applied at the concrete transcript. -/
theorem C5_confidence_score_witness :
    0 ≤ (analyzeTranscript tConf90).confidenceScore ∧
    (analyzeTranscript tConf90).confidenceScore ≤ 100 :=
  ((C5_confidence_score.1 tConf90).2.2 (by
    intro w hw cf hcf
    simp [tConf90, wConf09, wFiller01] at hw
    rcases hw with h | h <;> subst h <;> simp at hcf <;> subst hcf <;> norm_num))

/-! ## Claim C9 — duration-denominator guard -/

/-- C9 counterexample: a transcript whose `audio_duration` is the negative
 number -60 keeps it (the `|| 1` guard only replaces absent or zero), so
 the rate denominator is negative, not strictly positive, and one filler
 word yields the negative reported filler rate -1. -/
theorem C9_counterexample :
    effectiveDurationSeconds tNegDur = -60 ∧
    effectiveDurationSeconds tNegDur / 60 < 0 ∧
    (analyzeTranscript tNegDur).fillerRate = -1 ∧
    (analyzeTranscript tNegDur).fillerRate < 0 := by
  refine ⟨?_, ?_, ?_, ?_⟩
  · norm_num [effectiveDurationSeconds, tNegDur]
  · norm_num [effectiveDurationSeconds, tNegDur]
  · rw [fillerRate_eq]
    norm_num [fillerRateOf, tNegDur, fillersOf, isDisfluency, wFillerPlain,
      effectiveDurationSeconds, jsRound]
  · rw [fillerRate_eq]
    norm_num [fillerRateOf, tNegDur, fillersOf, isDisfluency, wFillerPlain,
      effectiveDurationSeconds, jsRound]

/-- C9 (amended): an absent or zero `audio_duration` is replaced by 1
 second; the effective duration and the per-minute denominator are never
 zero, so the rates are defined for every input; and the denominator is
 strictly positive whenever the duration field, if present, is
 nonnegative (a negative duration passes through unchanged). -/
theorem C9_duration_guard :
    ∀ t : TranscriptData,
      ((t.audio_duration = none ∨ t.audio_duration = some 0) →
        effectiveDurationSeconds t = 1) ∧
      effectiveDurationSeconds t ≠ 0 ∧
      ((∀ d ∈ t.audio_duration, 0 ≤ d) →
        0 < effectiveDurationSeconds t / 60) := by
  intro t
  refine ⟨?_, ?_, ?_⟩
  · rintro (h | h) <;> simp [effectiveDurationSeconds, h]
  · unfold effectiveDurationSeconds
    cases t.audio_duration with
    | none => norm_num
    | some d =>
      by_cases hz : d = 0
      · simp [hz]
      · simp [hz]
  · intro h
    exact div_pos (effectiveDurationSeconds_pos h) (by norm_num)

/-- C9 witness: the guard applied at the transcript with absent duration. -/
theorem C9_duration_guard_witness :
    effectiveDurationSeconds emptyTranscript = 1 ∧
    0 < effectiveDurationSeconds emptyTranscript / 60 :=
  ⟨(C9_duration_guard emptyTranscript).1 (Or.inl rfl),
   (C9_duration_guard emptyTranscript).2.2 (by simp [emptyTranscript])⟩

/-! ## Claim C10 — asymmetric treatment of a missing confidence -/

/-- C10: a word with no confidence field is never pronunciation-flagged
 (the `?? 1` default defeats the `< 0.6` test) while it contributes 0 to
 the mean (`|| 0`): every flagged entry carries a present confidence
 below 0.6, and adding the confidence-less word `wNoConf` to a one-word
 transcript drops the reported score from 90 to 45 with both
 pronunciation-flag lists empty. -/
theorem C10_missing_confidence :
    (∀ w : Word, w.confidence = none → flaggedPron w = false) ∧
    (∀ ws : List Word, ∀ p : String × Option ℚ, p ∈ pronunciationIssues ws →
      ∃ cf, p.2 = some cf ∧ cf < (0.6 : ℚ)) ∧
    (analyzeTranscript tConfA).confidenceScore = 90 ∧
    (analyzeTranscript tConfB).confidenceScore = 45 ∧
    (analyzeTranscript tConfA).pronunciationIssues = [] ∧
    (analyzeTranscript tConfB).pronunciationIssues = [] := by
  have hA : flaggedPron wConf09 = false := by
    simp [flaggedPron, wConf09, isDisfluency]
    norm_num
  have hB : flaggedPron wNoConf = false := by
    simp [flaggedPron, wNoConf, isDisfluency]
    norm_num
  refine ⟨?_, ?_, ?_, ?_, ?_, ?_⟩
  · intro w h
    simp [flaggedPron, h]
    norm_num
  · intro ws p hp
    rcases List.mem_map.mp hp with ⟨w, hw, rfl⟩
    have hf : flaggedPron w = true := (List.mem_filter.mp hw).2
    rw [flaggedPron, Bool.and_eq_true, decide_eq_true_eq] at hf
    rcases hf with ⟨hlt, _⟩
    cases hc : w.confidence with
    | none =>
      rw [hc] at hlt
      norm_num at hlt
    | some cf =>
      rw [hc] at hlt
      exact ⟨cf, rfl, by simpa using hlt⟩
  · have hsw : spokenWords (tConfA.words.getD []) = [wConf09] := rfl
    rw [confidenceScore_eq]
    simp only [avgConfidence, hsw]
    norm_num [wConf09, jsRound]
  · have hsw : spokenWords (tConfB.words.getD []) = [wConf09, wNoConf] := rfl
    rw [confidenceScore_eq]
    simp only [avgConfidence, hsw]
    norm_num [wConf09, wNoConf, jsRound]
  · rw [analysis_pron_eq]
    simp [tConfA, pronunciationIssues, hA]
  · rw [analysis_pron_eq]
    simp [tConfB, pronunciationIssues, hA, hB]

/-- C10 witness: the no-flag rule applied at the concrete word `wNoConf`. -/
theorem C10_missing_confidence_witness :
    flaggedPron wNoConf = false :=
  C10_missing_confidence.1 wNoConf rfl

/-! ## Claim C1 — failure handling of the analysis entry point -/

/-- C1 counterexample: when the job reports `error` status the poll loop
 throws the error detail, but `analyzeAudio` returns `null` — the failure
 reaches the caller only as a null result, not as a typed failure value,
 refuting the claim that a failure is never reported as a null result. -/
theorem C1_counterexample :
    pollLoop envJobError.polls = some (Except.error "oops", 1) ∧
    analyzeAudio envJobError = some none := by
  constructor
  · simp [envJobError, pollLoop, pollError]
  · simp [analyzeAudio, envJobError, pollLoop, pollError]

/-- C1 (amended): `analyzeAudio` returns either `null` or a complete
 `AnalysisResult`: a thrown upload, a thrown submission or a job reaching
 `error` status is caught and yields `null` (the error detail is not
 returned); when the job completes, the returned value is the complete
 result built from the completed transcript; and every non-null result is
 such a complete build — no partial or default result exists. -/
theorem C1_null_or_complete :
    ∀ env : RemoteEnv,
      (∀ e, env.upload = Except.error e → analyzeAudio env = some none) ∧
      (∀ e, env.submit = Except.error e → analyzeAudio env = some none) ∧
      (∀ e n, pollLoop env.polls = some (Except.error e, n) →
        analyzeAudio env = some none) ∧
      (∀ u i t n, env.upload = Except.ok u → env.submit = Except.ok i →
        pollLoop env.polls = some (Except.ok t, n) →
        analyzeAudio env = some (some (buildResult t))) ∧
      (∀ r, analyzeAudio env = some (some r) →
        ∃ t n, pollLoop env.polls = some (Except.ok t, n) ∧
          r = buildResult t) := by
  intro env
  refine ⟨?_, ?_, ?_, ?_, ?_⟩
  · intro e he
    simp [analyzeAudio, he]
  · intro e he
    cases hu : env.upload with
    | error e2 => simp [analyzeAudio, hu]
    | ok u => simp [analyzeAudio, hu, he]
  · intro e n hp
    cases hu : env.upload with
    | error e2 => simp [analyzeAudio, hu]
    | ok u =>
      cases hs : env.submit with
      | error e2 => simp [analyzeAudio, hu, hs]
      | ok i => simp [analyzeAudio, hu, hs, hp]
  · intro u i t n hu hs hp
    simp [analyzeAudio, hu, hs, hp]
  · intro r hr
    cases hu : env.upload with
    | error e =>
      rw [analyzeAudio, hu] at hr
      simp at hr
    | ok u =>
      cases hs : env.submit with
      | error e =>
        rw [analyzeAudio, hu, hs] at hr
        simp at hr
      | ok i =>
        cases hp : pollLoop env.polls with
        | none =>
          rw [analyzeAudio, hu, hs, hp] at hr
          simp at hr
        | some p =>
          obtain ⟨res, n⟩ := p
          cases res with
          | error e =>
            rw [analyzeAudio, hu, hs, hp] at hr
            simp at hr
          | ok t =>
            rw [analyzeAudio, hu, hs, hp] at hr
            simp at hr
            exact ⟨t, n, rfl, hr.symm⟩

/-- C1 witness: a failed upload yields null; a completed job yields the
 complete built result. -/
theorem C1_null_or_complete_witness :
    analyzeAudio envUploadFail = some none ∧
    analyzeAudio envCompleted = some (some (buildResult emptyTranscript)) :=
  ⟨(C1_null_or_complete envUploadFail).1 "netdown" rfl,
   (C1_null_or_complete envCompleted).2.2.2.1 "url" "id" emptyTranscript 1
     rfl rfl (by simp [envCompleted, pollLoop, pollCompleted])⟩

end YouSound
